import Mathlib

/-!
Shallow embedding of `token_racer.py`, a terminal racing game whose track is
streamed from an external text-generation service.

Modelling conventions:
* A track line is a `List Char`; Python strings become lists of characters.
* Randomness (`random.choice`, `random.randint`, `random.random`) is modelled
  by streams of natural numbers (`Nat → Nat`); each draw reads one position of
  a stream, and `random.random() < 0.3` is modelled as a stream value mod 10
  being below 3.  The claims under study hold for every stream, which covers
  every outcome the Python RNG can produce.
* The OpenAI chat-completion call is modelled as an abstract service function
  receiving the data the prompt embeds (trailing context, chunk size,
  difficulty) and returning either the reply split into lines, or an error
  (a raised exception).
-/

/-- `ROAD_WIDTH = 25` from the game config. -/
def ROAD_WIDTH : Nat := 25

/-- `DISPLAY_HEIGHT = 25` from the game config. -/
def DISPLAY_HEIGHT : Nat := 25

/-- `OBSTACLE_CHARS = ["#", "*", "~", "@"]` from the game config. -/
def OBSTACLE_CHARS : List Char := ['#', '*', '~', '@']

/-- `BASE_FPS = 12` from the game config. -/
def BASE_FPS : Nat := 12

/-- `ROAD_CHUNK_SIZE = 30` from the game config. -/
def ROAD_CHUNK_SIZE : Nat := 30

/-- `max_gear = 10` from the game state. -/
def max_gear : Nat := 10

/-- `random.choice(OBSTACLE_CHARS)`: the stream value selects one of the four
obstacle characters. -/
def randChoice (k : Nat) : Char :=
  OBSTACLE_CHARS.getD (k % OBSTACLE_CHARS.length) ' '

/-- A cell of the interior of a track line: empty road or a recognized
obstacle symbol (the TrackLine alphabet). -/
def isTrackChar (c : Char) : Bool :=
  c == ' ' || OBSTACLE_CHARS.contains c

/-- The TrackLine invariant: length exactly `ROAD_WIDTH + 2`, first and last
characters the wall marker `'|'`, every interior character in the closed
alphabet. -/
def isTrackLine (l : List Char) : Bool :=
  (l.length == ROAD_WIDTH + 2) && (l.head? == some '|') && (l.getLast? == some '|')
    && ((l.drop 1).dropLast.all isTrackChar)

/-- The loop body of `create_safe_road_line`: write a random obstacle at each
listed position that lies inside the road, left to right.  `i` indexes the
random stream. -/
def placeObstacles (r : Nat → Nat) : List Int → Nat → List Char → List Char
  | [], _, road => road
  | p :: ps, i, road =>
      placeObstacles r ps (i + 1)
        (if 0 ≤ p ∧ p < (ROAD_WIDTH : Int) then road.set p.toNat (randChoice (r i)) else road)

/-- `create_safe_road_line(obstacle_positions)`: a row of `ROAD_WIDTH` spaces,
with a random obstacle written at each in-range listed position, enclosed in
wall markers. -/
def create_safe_road_line (obstacle_positions : List Int) (r : Nat → Nat) : List Char :=
  '|' :: placeObstacles r obstacle_positions 0 (List.replicate ROAD_WIDTH ' ') ++ ['|']

/-- The interior walk of `validate_and_fix_road_line`: a character in the
alphabet passes through unchanged, anything else is replaced by a random
obstacle (`random.choice(OBSTACLE_CHARS) if char != " " else " "`). -/
def fixInterior (r : Nat → Nat) : Nat → List Char → List Char
  | _, [] => []
  | i, c :: cs =>
      (if c ∈ OBSTACLE_CHARS ∨ c = ' ' then c
       else if c ≠ ' ' then randChoice (r i) else ' ') :: fixInterior r (i + 1) cs

/-- `validate_and_fix_road_line(line)`: discard a line that is empty, not
wall-delimited, or of the wrong interior width, synthesizing a fresh safe
line; otherwise repair the interior character by character. -/
def validate_and_fix_road_line (line : List Char) (r : Nat → Nat) : List Char :=
  if line = [] ∨ ¬(line.head? = some '|' ∧ line.getLast? = some '|') then
    create_safe_road_line [] r
  else if ((line.drop 1).dropLast).length ≠ ROAD_WIDTH then
    create_safe_road_line [] r
  else
    '|' :: fixInterior r 0 ((line.drop 1).dropLast) ++ ['|']

/-- `random.randint(lo, hi)` with `0 ≤ lo ≤ hi`: a stream draw mapped into the
inclusive range. -/
def randInt (lo hi : Nat) (v : Nat) : Nat := lo + v % (hi - lo + 1)

/-- Python `str.strip()`: whitespace removed from both ends. -/
def pyStrip (l : List Char) : List Char :=
  ((l.dropWhile Char.isWhitespace).reverse.dropWhile Char.isWhitespace).reverse

/-- The reply-parsing loop of `llm_generate_road_chunk`: strip each raw line,
drop blank ones, pass the rest through the sanitizer.  `i` indexes the
per-line random streams. -/
def sanitizeRawLines (rs : Nat → Nat → Nat) : Nat → List (List Char) → List (List Char)
  | _, [] => []
  | i, l :: ls =>
      if pyStrip l = [] then sanitizeRawLines rs (i + 1) ls
      else validate_and_fix_road_line (pyStrip l) (rs i) :: sanitizeRawLines rs (i + 1) ls

/-- The slalom layout of the padding synthesizer: obstacles every 3 cells
around a jittered center, kept only when inside the road. -/
def slalomPositions (center : Int) (num : Nat) : List Int :=
  ((List.range num).map fun i => center + ((i : Int) - ((num / 2 : Nat) : Int)) * 3).filter
    (fun p => decide (0 ≤ p ∧ p < (ROAD_WIDTH : Int)))

/-- Independent random point obstacles, skipping duplicates (`if pos not in
obstacle_positions`), as used by the third layout strategy and by the
procedural fallback. -/
def distinctRandomPositions (g : Nat → Nat) : Nat → Nat → List Int → List Int
  | _, 0, acc => acc
  | off, k + 1, acc =>
      let pos : Int := (randInt 0 (ROAD_WIDTH - 1) (g off) : Nat)
      distinctRandomPositions g (off + 1) k (if pos ∈ acc then acc else acc ++ [pos])

/-- Obstacle positions for one procedurally synthesized padding line: one of
the three layout strategies — wall clusters near each edge, a centered slalom,
or independent random points — chosen by two 30% coin flips. -/
def synthPositions (difficulty : Nat) (g : Nat → Nat) : List Int :=
  let num_obstacles := randInt 0 (min 3 difficulty) (g 0)
  if num_obstacles > 0 then
    if g 1 % 10 < 3 then
      let left_wall := randInt 0 (ROAD_WIDTH / 3) (g 2)
      let right_wall := randInt (2 * ROAD_WIDTH / 3) (ROAD_WIDTH - 1) (g 3)
      ((List.range 5).map fun k => ((left_wall + k : Nat) : Int)) ++
        ((List.range (min ROAD_WIDTH (right_wall + 5) - right_wall)).map
          fun k => ((right_wall + k : Nat) : Int))
    else if g 4 % 10 < 3 then
      let center : Int := ((ROAD_WIDTH / 2 : Nat) : Int) + ((g 5 % 21 : Nat) : Int) - 10
      slalomPositions center num_obstacles
    else
      distinctRandomPositions g 6 num_obstacles []
  else []

/-- One procedurally synthesized padding line of the while-loop in
`llm_generate_road_chunk`. -/
def synthPadLine (difficulty : Nat) (g : Nat → Nat) : List Char :=
  create_safe_road_line (synthPositions difficulty g) (fun k => g (100 + k))

/-- The padding while-loop: synthesize lines until the quota is met. -/
def padLines (difficulty : Nat) (rp : Nat → Nat → Nat) : Nat → Nat → List (List Char)
  | _, 0 => []
  | i, n + 1 => synthPadLine difficulty (rp i) :: padLines difficulty rp (i + 1) n

/-- One line of the exception-path fallback: 0–2 random distinct obstacle
positions. -/
def fallbackLine (g : Nat → Nat) : List Char :=
  create_safe_road_line (distinctRandomPositions g 1 (randInt 0 2 (g 0)) []) (fun k => g (100 + k))

/-- The whole-chunk procedural fallback taken when the service call raises. -/
def fallbackChunk (chunk_size : Nat) (rp : Nat → Nat → Nat) : List (List Char) :=
  (List.range chunk_size).map fun i => fallbackLine (rp i)

/-- The external chat-completion service, abstracted: it receives the data the
prompt embeds (the trailing ≤ 5 context lines, the chunk size, the difficulty)
and returns the reply split into lines, or an error (a raised exception). -/
def GenService : Type :=
  List (List Char) → Nat → Nat → Except Unit (List (List Char))

/-- `llm_generate_road_chunk(previous_lines, chunk_size, difficulty)`: call
the service with the last 5 context lines; on success parse and sanitize the
reply, pad procedurally up to `chunk_size`, truncate any surplus; on any
exception produce the whole chunk by the procedural fallback. -/
def llm_generate_road_chunk (svc : GenService) (previous_lines : List (List Char))
    (chunk_size difficulty : Nat) (rs rp : Nat → Nat → Nat) : List (List Char) :=
  match svc (previous_lines.drop (previous_lines.length - 5)) chunk_size difficulty with
  | .ok raw_lines =>
      (sanitizeRawLines rs 0 raw_lines ++
        padLines difficulty rp (sanitizeRawLines rs 0 raw_lines).length
          (chunk_size - (sanitizeRawLines rs 0 raw_lines).length)).take chunk_size
  | .error _ => fallbackChunk chunk_size rp

/-- One row of the `GEAR_SPEEDS` table.  The Python float `fps_mult` is
modelled as the exact rational value the literal denotes. -/
structure GearProfile where
  fps_mult : ℚ
  move_speed : Nat
  name : String
deriving DecidableEq

/-- The `GEAR_SPEEDS` table, gears 1–10.  Any other key is a `KeyError` in the
source; it is modelled by a junk profile, never reached under the gear
invariant `1 ≤ gear ≤ max_gear`. -/
def GEAR_SPEEDS : Nat → GearProfile
  | 1 => ⟨5/10, 1, "1st"⟩
  | 2 => ⟨7/10, 1, "2nd"⟩
  | 3 => ⟨10/10, 2, "3rd"⟩
  | 4 => ⟨13/10, 2, "4th"⟩
  | 5 => ⟨18/10, 3, "5th"⟩
  | 6 => ⟨20/10, 4, "6th"⟩
  | 7 => ⟨22/10, 5, "7th"⟩
  | 8 => ⟨26/10, 6, "8th"⟩
  | 9 => ⟨28/10, 7, "9th"⟩
  | 10 => ⟨30/10, 8, "10th"⟩
  | _ => ⟨0, 0, ""⟩

/-- The frame-advance interval of the main loop:
`1.0 / (BASE_FPS * gear_info["fps_mult"])`. -/
def frame_delay (gear : Nat) : ℚ := 1 / ((BASE_FPS : ℚ) * (GEAR_SPEEDS gear).fps_mult)

/-- A queued player intent, as appended by `keypress_listener`. -/
inductive Intent
  | up | down | left | right | gear_up
deriving DecidableEq

/-- The mutable state touched by `process_input`: player position, current
gear, and the pending intent queue. -/
structure PlayerState where
  player_x : Int
  player_y : Int
  current_gear : Nat
  input_queue : List Intent
deriving DecidableEq

/-- The if/elif chain in the body of `process_input`, applied to one popped
intent. -/
def applyIntent (s : PlayerState) (a : Intent) : PlayerState :=
  match a with
  | .left => if s.player_x > 0 then { s with player_x := s.player_x - 1 } else s
  | .right =>
      if s.player_x < (ROAD_WIDTH : Int) - 1 then { s with player_x := s.player_x + 1 } else s
  | .up => if s.player_y > 0 then { s with player_y := s.player_y - 1 } else s
  | .down =>
      if s.player_y < (DISPLAY_HEIGHT : Int) - 1 then { s with player_y := s.player_y + 1 } else s
  | .gear_up => { s with current_gear := min max_gear (s.current_gear + 1) }

/-- The `for _ in range(moves_this_frame)` loop of `process_input`: pop the
queue front and apply it, `n` times (a no-op iteration when the queue is
empty). -/
def drainIntents : Nat → PlayerState → PlayerState
  | 0, s => s
  | n + 1, s =>
      match s.input_queue with
      | [] => drainIntents n s
      | a :: rest => drainIntents n (applyIntent { s with input_queue := rest } a)

/-- `process_input()`: consume up to the current gear's `move_speed` queued
intents, front first. -/
def process_input (s : PlayerState) : PlayerState :=
  drainIntents (min s.input_queue.length (GEAR_SPEEDS s.current_gear).move_speed) s

/-- Sequential application of a list of intents, oldest first — the reference
form of FIFO consumption against which `process_input` is compared. -/
def applyIntentList (s : PlayerState) : List Intent → PlayerState
  | [] => s
  | a :: as => applyIntentList (applyIntent s a) as

/-- The buffer row facing the player:
`road_line_index = len(road_buffer) - DISPLAY_HEIGHT + player_y`. -/
def road_line_index (buf : List (List Char)) (player_y : Int) : Int :=
  (buf.length : Int) - (DISPLAY_HEIGHT : Int) + player_y

/-- `check_collision()`: look up the buffer row facing the player and test the
cell at the player's column for an obstacle symbol, with bounds and format
guards. -/
def check_collision (buf : List (List Char)) (player_x player_y : Int) : Bool :=
  if 0 ≤ road_line_index buf player_y ∧ road_line_index buf player_y < (buf.length : Int) then
    if (buf.getD (road_line_index buf player_y).toNat []).head? = some '|' ∧
        (buf.getD (road_line_index buf player_y).toNat []).getLast? = some '|' ∧
        (buf.getD (road_line_index buf player_y).toNat []).length = ROAD_WIDTH + 2 then
      if 0 ≤ player_x ∧ player_x < (ROAD_WIDTH : Int) then
        OBSTACLE_CHARS.contains
          ((buf.getD (road_line_index buf player_y).toNat []).getD (player_x + 1).toNat ' ')
      else false
    else false
  else false

/-- `validate_road_buffer()`: re-sanitize every line of the buffer in place.
`i` indexes the per-line random streams. -/
def validate_road_buffer (rv : Nat → Nat → Nat) : Nat → List (List Char) → List (List Char)
  | _, [] => []
  | i, l :: ls => validate_and_fix_road_line l (rv i) :: validate_road_buffer rv (i + 1) ls

/-- One pass of the `road_refiller` background cycle body: refill when the
buffer is below `ROAD_CHUNK_SIZE * 2`, with difficulty
`min(5, score // 150 + 1)` and context `road_buffer[:5]`, prepending the
chunk and re-validating the whole buffer. -/
def road_refiller_step (svc : GenService) (score : Nat) (rs rp rv : Nat → Nat → Nat)
    (buf : List (List Char)) : List (List Char) :=
  if buf.length < ROAD_CHUNK_SIZE * 2 then
    validate_road_buffer rv 0
      (llm_generate_road_chunk svc (buf.take 5) ROAD_CHUNK_SIZE (min 5 (score / 150 + 1)) rs rp
        ++ buf)
  else buf

/-- The main loop's safety-net refill: the same sanitize-then-prepend sequence
with the tighter threshold `DISPLAY_HEIGHT + 10`. -/
def main_refill_step (svc : GenService) (score : Nat) (rs rp rv : Nat → Nat → Nat)
    (buf : List (List Char)) : List (List Char) :=
  if buf.length < DISPLAY_HEIGHT + 10 then
    validate_road_buffer rv 0
      (llm_generate_road_chunk svc (buf.take 5) ROAD_CHUNK_SIZE (min 5 (score / 150 + 1)) rs rp
        ++ buf)
  else buf

/-- The frame-advance tail pop: `road_buffer.pop()` guarded by
`len(road_buffer) > DISPLAY_HEIGHT + 10`. -/
def pop_tail_step (buf : List (List Char)) : List (List Char) :=
  if buf.length > DISPLAY_HEIGHT + 10 then buf.dropLast else buf

/-- A buffer operation performed by the program: a background-refiller pass, a
main-loop safety-net refill, or the frame-advance tail pop. -/
inductive BufOp
  | refillBackground (svc : GenService) (score : Nat) (rs rp rv : Nat → Nat → Nat)
  | refillSafetyNet (svc : GenService) (score : Nat) (rs rp rv : Nat → Nat → Nat)
  | popTail

/-- Apply one buffer operation. -/
def applyBufOp (buf : List (List Char)) : BufOp → List (List Char)
  | .refillBackground svc score rs rp rv => road_refiller_step svc score rs rp rv buf
  | .refillSafetyNet svc score rs rp rv => main_refill_step svc score rs rp rv buf
  | .popTail => pop_tail_step buf

/-- Apply a sequence of buffer operations, oldest first. -/
def applyBufOps (buf : List (List Char)) : List BufOp → List (List Char)
  | [] => buf
  | op :: ops => applyBufOps (applyBufOp buf op) ops

/-- The buffer effect of one main-loop iteration: the safety-net refill check,
then — when the gear-derived frame delay has elapsed and the tick was not cut
short by a collision (`frame_advance`) — the guarded tail pop. -/
def main_tick_buffer (svc : GenService) (score : Nat) (rs rp rv : Nat → Nat → Nat)
    (frame_advance : Bool) (buf : List (List Char)) : List (List Char) :=
  if frame_advance then pop_tail_step (main_refill_step svc score rs rp rv buf)
  else main_refill_step svc score rs rp rv buf

lemma randChoice_mem (k : Nat) : randChoice k ∈ OBSTACLE_CHARS := by
  have h : k % OBSTACLE_CHARS.length < OBSTACLE_CHARS.length := by
    exact Nat.mod_lt _ (by simp [OBSTACLE_CHARS])
  unfold randChoice
  rw [List.getD_eq_getElem _ _ h]
  exact List.getElem_mem h

lemma isTrackChar_randChoice (k : Nat) : isTrackChar (randChoice k) = true := by
  have h := randChoice_mem k
  simp [isTrackChar]
  right
  simpa using h

lemma all_isTrackChar_set (l : List Char) (n : Nat) (c : Char)
    (hl : l.all isTrackChar = true) (hc : isTrackChar c = true) :
    (l.set n c).all isTrackChar = true := by
  induction l generalizing n with
  | nil => simp
  | cons a as ih =>
    cases n with
    | zero => simp_all
    | succ m =>
      simp only [List.set, List.all_cons, Bool.and_eq_true] at hl ⊢
      exact ⟨hl.1, ih m hl.2⟩

lemma placeObstacles_length (r : Nat → Nat) :
    ∀ (ps : List Int) (i : Nat) (road : List Char),
      (placeObstacles r ps i road).length = road.length := by
  intro ps
  induction ps with
  | nil => intro i road; rfl
  | cons p ps ih =>
    intro i road
    simp only [placeObstacles]
    rw [ih]
    split <;> simp

lemma placeObstacles_all (r : Nat → Nat) :
    ∀ (ps : List Int) (i : Nat) (road : List Char),
      road.all isTrackChar = true → (placeObstacles r ps i road).all isTrackChar = true := by
  intro ps
  induction ps with
  | nil => intro i road h; exact h
  | cons p ps ih =>
    intro i road h
    simp only [placeObstacles]
    apply ih
    split
    · exact all_isTrackChar_set _ _ _ h (isTrackChar_randChoice _)
    · exact h

lemma isTrackLine_build (m : List Char) (hlen : m.length = ROAD_WIDTH)
    (hall : m.all isTrackChar = true) : isTrackLine ('|' :: m ++ ['|']) = true := by
  unfold isTrackLine
  have hlast : ('|' :: m ++ ['|']).getLast? = some '|' := by
    have h : '|' :: m ++ ['|'] = ('|' :: m) ++ ['|'] := by simp
    rw [h, List.getLast?_concat]
  have hdrop : (('|' :: m ++ ['|']).drop 1).dropLast = m := by
    simp [List.dropLast_concat]
  rw [hlast, hdrop, hall]
  simp [hlen]

lemma create_safe_isTrackLine (ps : List Int) (r : Nat → Nat) :
    isTrackLine (create_safe_road_line ps r) = true := by
  unfold create_safe_road_line
  apply isTrackLine_build
  · rw [placeObstacles_length]; simp
  · apply placeObstacles_all
    simp [isTrackChar]

lemma fixInterior_length (r : Nat → Nat) :
    ∀ (i : Nat) (cs : List Char), (fixInterior r i cs).length = cs.length := by
  intro i cs
  induction cs generalizing i with
  | nil => rfl
  | cons c cs ih => simp [fixInterior, ih]

lemma fixInterior_all (r : Nat → Nat) :
    ∀ (i : Nat) (cs : List Char), (fixInterior r i cs).all isTrackChar = true := by
  intro i cs
  induction cs generalizing i with
  | nil => rfl
  | cons c cs ih =>
    simp only [fixInterior, List.all_cons, Bool.and_eq_true]
    refine ⟨?_, ih (i + 1)⟩
    split
    · rename_i h
      rcases h with h | h
      · simp only [OBSTACLE_CHARS, List.mem_cons, List.not_mem_nil, or_false] at h
        rcases h with h | h | h | h <;> subst h <;> decide
      · simp [isTrackChar, h]
    · split
      · exact isTrackChar_randChoice _
      · simp [isTrackChar]

lemma fixInterior_id (r : Nat → Nat) :
    ∀ (i : Nat) (cs : List Char), cs.all isTrackChar = true → fixInterior r i cs = cs := by
  intro i cs
  induction cs generalizing i with
  | nil => intro _; rfl
  | cons c cs ih =>
    intro h
    simp only [List.all_cons, Bool.and_eq_true] at h
    have hc : c ∈ OBSTACLE_CHARS ∨ c = ' ' := by
      have h1 := h.1
      simp only [isTrackChar, Bool.or_eq_true, beq_iff_eq] at h1
      rcases h1 with h1 | h1
      · exact Or.inr h1
      · exact Or.inl (List.elem_iff.mp h1)
    simp [fixInterior, hc, ih _ h.2]

lemma trackLine_decompose (l : List Char) (h : isTrackLine l = true) :
    l = '|' :: (l.drop 1).dropLast ++ ['|'] ∧
      ((l.drop 1).dropLast).length = ROAD_WIDTH ∧
      ((l.drop 1).dropLast).all isTrackChar = true := by
  unfold isTrackLine at h
  simp only [Bool.and_eq_true, beq_iff_eq] at h
  obtain ⟨⟨⟨hlen, hhead⟩, hlast⟩, hall⟩ := h
  rcases l with _ | ⟨a, _ | ⟨b, t⟩⟩
  · simp at hhead
  · simp [ROAD_WIDTH] at hlen
  · have ha : a = '|' := by simpa using hhead
    subst ha
    rw [List.getLast?_cons_cons] at hlast
    have hrec := List.dropLast_append_getLast? '|' hlast
    refine ⟨?_, ?_, hall⟩
    · simp only [List.drop_succ_cons, List.drop_zero]
      nth_rewrite 1 [← hrec]
      simp
    · have : (b :: t).length = ROAD_WIDTH + 1 := by
        simpa [ROAD_WIDTH] using hlen
      simp only [List.drop_succ_cons, List.drop_zero, List.length_dropLast]
      omega

lemma validate_and_fix_isTrackLine (line : List Char) (r : Nat → Nat) :
    isTrackLine (validate_and_fix_road_line line r) = true := by
  unfold validate_and_fix_road_line
  split
  · exact create_safe_isTrackLine [] r
  · split
    · exact create_safe_isTrackLine [] r
    · rename_i hne hlen
      apply isTrackLine_build
      · rw [fixInterior_length]
        omega
      · exact fixInterior_all r 0 _

lemma validate_and_fix_id (l : List Char) (s : Nat → Nat) (hl : isTrackLine l = true) :
    validate_and_fix_road_line l s = l := by
  obtain ⟨hdec, hlen, hall⟩ := trackLine_decompose l hl
  unfold isTrackLine at hl
  simp only [Bool.and_eq_true, beq_iff_eq] at hl
  obtain ⟨⟨⟨hlength, hhead⟩, hlast⟩, _⟩ := hl
  have h1 : ¬(l = [] ∨ ¬(l.head? = some '|' ∧ l.getLast? = some '|')) := by
    push_neg
    refine ⟨?_, hhead, hlast⟩
    intro he
    subst he
    simp at hhead
  have h2 : ¬(((l.drop 1).dropLast).length ≠ ROAD_WIDTH) := not_not_intro hlen
  unfold validate_and_fix_road_line
  rw [if_neg h1, if_neg h2, fixInterior_id _ _ _ hall]
  exact hdec.symm

/-- C1: for every input string (empty, overlong, arbitrary symbols included),
`validate_and_fix_road_line` returns a string satisfying the TrackLine
invariant — exact length `ROAD_WIDTH + 2`, wall markers at both ends, interior
in the closed alphabet — and it is total: no input is rejected. -/
theorem claim_C1_sanitizer_total (line : List Char) (r : Nat → Nat) :
    isTrackLine (validate_and_fix_road_line line r) = true :=
  validate_and_fix_isTrackLine line r

/-- C9: the sanitizer is the identity on lines already satisfying the
TrackLine invariant — every in-alphabet character passes through unchanged —
and is therefore idempotent on its own outputs. -/
theorem claim_C9_sanitizer_identity (line : List Char) (r r' : Nat → Nat) :
    (isTrackLine line = true → validate_and_fix_road_line line r = line) ∧
    validate_and_fix_road_line (validate_and_fix_road_line line r) r' =
      validate_and_fix_road_line line r :=
  ⟨validate_and_fix_id line r,
   validate_and_fix_id _ r' (validate_and_fix_isTrackLine line r)⟩

/-- Witness for C9: a concrete all-empty valid line is returned unchanged. -/
theorem claim_C9_witness :
    validate_and_fix_road_line ('|' :: List.replicate 25 ' ' ++ ['|']) (fun _ => 0) =
      '|' :: List.replicate 25 ' ' ++ ['|'] :=
  (claim_C9_sanitizer_identity ('|' :: List.replicate 25 ' ' ++ ['|'])
    (fun _ => 0) (fun _ => 0)).1 (by decide)

lemma sanitizeRawLines_all (rs : Nat → Nat → Nat) :
    ∀ (i : Nat) (raws : List (List Char)) (l : List Char),
      l ∈ sanitizeRawLines rs i raws → isTrackLine l = true := by
  intro i raws
  induction raws generalizing i with
  | nil => intro l hl; simp [sanitizeRawLines] at hl
  | cons x xs ih =>
    intro l hl
    simp only [sanitizeRawLines] at hl
    split at hl
    · exact ih _ _ hl
    · rcases List.mem_cons.mp hl with h | h
      · subst h; exact validate_and_fix_isTrackLine _ _
      · exact ih _ _ h

lemma padLines_length (d : Nat) (rp : Nat → Nat → Nat) :
    ∀ (n i : Nat), (padLines d rp i n).length = n := by
  intro n
  induction n with
  | zero => intro i; rfl
  | succ m ih => intro i; simp [padLines, ih]

lemma padLines_all (d : Nat) (rp : Nat → Nat → Nat) :
    ∀ (n i : Nat) (l : List Char), l ∈ padLines d rp i n → isTrackLine l = true := by
  intro n
  induction n with
  | zero => intro i l hl; simp [padLines] at hl
  | succ m ih =>
    intro i l hl
    simp only [padLines] at hl
    rcases List.mem_cons.mp hl with h | h
    · subst h; exact create_safe_isTrackLine _ _
    · exact ih _ _ h

lemma fallbackChunk_length (n : Nat) (rp : Nat → Nat → Nat) :
    (fallbackChunk n rp).length = n := by
  simp [fallbackChunk]

lemma fallbackChunk_all (n : Nat) (rp : Nat → Nat → Nat) :
    ∀ l ∈ fallbackChunk n rp, isTrackLine l = true := by
  intro l hl
  obtain ⟨i, _, hi⟩ := List.mem_map.mp hl
  subst hi
  exact create_safe_isTrackLine _ _

lemma llm_chunk_length (svc : GenService) (prev : List (List Char)) (n d : Nat)
    (rs rp : Nat → Nat → Nat) :
    (llm_generate_road_chunk svc prev n d rs rp).length = n := by
  unfold llm_generate_road_chunk
  cases svc (prev.drop (prev.length - 5)) n d with
  | ok raw =>
      simp only [List.length_take, List.length_append, padLines_length]
      omega
  | error e => exact fallbackChunk_length n rp

lemma llm_chunk_all (svc : GenService) (prev : List (List Char)) (n d : Nat)
    (rs rp : Nat → Nat → Nat) :
    ∀ l ∈ llm_generate_road_chunk svc prev n d rs rp, isTrackLine l = true := by
  intro l hl
  unfold llm_generate_road_chunk at hl
  cases hsvc : svc (prev.drop (prev.length - 5)) n d with
  | ok raw =>
      rw [hsvc] at hl
      have hl' := List.mem_of_mem_take hl
      rcases List.mem_append.mp hl' with h | h
      · exact sanitizeRawLines_all rs 0 raw l h
      · exact padLines_all d rp _ _ l h
  | error e =>
      rw [hsvc] at hl
      exact fallbackChunk_all n rp l hl

/-- C2: for every context, chunk size `n ≥ 0` and difficulty,
`llm_generate_road_chunk` returns exactly `n` lines, each satisfying the
TrackLine invariant, and when the service call raises an exception the whole
chunk is the procedural fallback — the failure is never propagated. -/
theorem claim_C2_chunk_always_n_valid (svc : GenService) (prev : List (List Char))
    (n d : Nat) (rs rp : Nat → Nat → Nat) :
    (llm_generate_road_chunk svc prev n d rs rp).length = n ∧
    (∀ l ∈ llm_generate_road_chunk svc prev n d rs rp, isTrackLine l = true) ∧
    (svc (prev.drop (prev.length - 5)) n d = .error () →
      llm_generate_road_chunk svc prev n d rs rp = fallbackChunk n rp) := by
  refine ⟨llm_chunk_length svc prev n d rs rp, llm_chunk_all svc prev n d rs rp, ?_⟩
  intro herr
  unfold llm_generate_road_chunk
  rw [herr]

/-- Witness for C2: a service that always fails, chunk size 2 — the chunk is
the 2-line fallback, and both lines are valid. -/
theorem claim_C2_witness :
    (llm_generate_road_chunk (fun _ _ _ => .error ()) [] 2 1 (fun _ _ => 0)
        (fun _ _ => 0)).length = 2 ∧
    llm_generate_road_chunk (fun _ _ _ => .error ()) [] 2 1 (fun _ _ => 0) (fun _ _ => 0) =
      fallbackChunk 2 (fun _ _ => 0) :=
  ⟨(claim_C2_chunk_always_n_valid (fun _ _ _ => .error ()) [] 2 1 (fun _ _ => 0)
      (fun _ _ => 0)).1,
   (claim_C2_chunk_always_n_valid (fun _ _ _ => .error ()) [] 2 1 (fun _ _ => 0)
      (fun _ _ => 0)).2.2 rfl⟩

lemma validate_road_buffer_all (rv : Nat → Nat → Nat) :
    ∀ (i : Nat) (bs : List (List Char)) (l : List Char),
      l ∈ validate_road_buffer rv i bs → isTrackLine l = true := by
  intro i bs
  induction bs generalizing i with
  | nil => intro l hl; simp [validate_road_buffer] at hl
  | cons x xs ih =>
    intro l hl
    simp only [validate_road_buffer] at hl
    rcases List.mem_cons.mp hl with h | h
    · subst h; exact validate_and_fix_isTrackLine _ _
    · exact ih _ _ h

lemma validate_road_buffer_length (rv : Nat → Nat → Nat) :
    ∀ (i : Nat) (bs : List (List Char)), (validate_road_buffer rv i bs).length = bs.length := by
  intro i bs
  induction bs generalizing i with
  | nil => rfl
  | cons x xs ih => simp [validate_road_buffer, ih]

lemma validate_road_buffer_id (rv : Nat → Nat → Nat) :
    ∀ (i : Nat) (bs : List (List Char)), (∀ l ∈ bs, isTrackLine l = true) →
      validate_road_buffer rv i bs = bs := by
  intro i bs
  induction bs generalizing i with
  | nil => intro _; rfl
  | cons x xs ih =>
    intro h
    simp only [validate_road_buffer]
    rw [validate_and_fix_id x _ (h x (List.mem_cons_self x xs)),
      ih _ (fun l hl => h l (List.mem_cons_of_mem x hl))]

lemma applyBufOp_all (buf : List (List Char)) (op : BufOp)
    (h : ∀ l ∈ buf, isTrackLine l = true) :
    ∀ l ∈ applyBufOp buf op, isTrackLine l = true := by
  cases op with
  | refillBackground svc score rs rp rv =>
    intro l hl
    simp only [applyBufOp, road_refiller_step] at hl
    split at hl
    · exact validate_road_buffer_all rv 0 _ l hl
    · exact h l hl
  | refillSafetyNet svc score rs rp rv =>
    intro l hl
    simp only [applyBufOp, main_refill_step] at hl
    split at hl
    · exact validate_road_buffer_all rv 0 _ l hl
    · exact h l hl
  | popTail =>
    intro l hl
    simp only [applyBufOp, pop_tail_step] at hl
    split at hl
    · exact h l (List.dropLast_subset buf hl)
    · exact h l hl

/-- C3: starting from a buffer of valid lines, any sequence of the program's
buffer operations (refill prepends, frame-advance tail pops) leaves every
element satisfying the TrackLine invariant and a non-negative length; the
tail pop fires only above `DISPLAY_HEIGHT + 10`, so it never pops an empty
buffer. -/
theorem claim_C3_buffer_invariant (ops : List BufOp) (buf : List (List Char))
    (hbuf : ∀ l ∈ buf, isTrackLine l = true) :
    (∀ l ∈ applyBufOps buf ops, isTrackLine l = true) ∧
    0 ≤ (applyBufOps buf ops).length ∧
    (∀ b : List (List Char), b.length ≤ DISPLAY_HEIGHT + 10 → pop_tail_step b = b) := by
  refine ⟨?_, Nat.zero_le _, ?_⟩
  · induction ops generalizing buf with
    | nil => exact hbuf
    | cons op ops ih =>
      simp only [applyBufOps]
      exact ih _ (applyBufOp_all buf op hbuf)
  · intro b hb
    simp only [pop_tail_step]
    rw [if_neg]
    omega

/-- Witness for C3: the empty buffer, one tail-pop operation — nothing is
popped and the invariant holds vacuously. -/
theorem claim_C3_witness :
    (∀ l ∈ applyBufOps ([] : List (List Char)) [BufOp.popTail], isTrackLine l = true) ∧
    0 ≤ (applyBufOps ([] : List (List Char)) [BufOp.popTail]).length ∧
    (∀ b : List (List Char), b.length ≤ DISPLAY_HEIGHT + 10 → pop_tail_step b = b) :=
  claim_C3_buffer_invariant [BufOp.popTail] [] (by simp)

/-- C8: the background refill cycle requests a chunk exactly when the buffer
is below `2 × chunkSize`; the request uses difficulty `min(5, score/150 + 1)`
and the 5 most-recently-prepended lines (`road_buffer[:5]`) as context, and
the chunk ends up prepended to the head of the buffer. -/
theorem claim_C8_refiller_policy (svc : GenService) (score : Nat)
    (rs rp rv : Nat → Nat → Nat) (buf : List (List Char))
    (hbuf : ∀ l ∈ buf, isTrackLine l = true) :
    (buf.length < ROAD_CHUNK_SIZE * 2 →
      road_refiller_step svc score rs rp rv buf =
        llm_generate_road_chunk svc (buf.take 5) ROAD_CHUNK_SIZE (min 5 (score / 150 + 1)) rs rp
          ++ buf) ∧
    (¬buf.length < ROAD_CHUNK_SIZE * 2 → road_refiller_step svc score rs rp rv buf = buf) := by
  constructor
  · intro hlt
    unfold road_refiller_step
    rw [if_pos hlt]
    apply validate_road_buffer_id
    intro l hl
    rcases List.mem_append.mp hl with h | h
    · exact llm_chunk_all svc (buf.take 5) ROAD_CHUNK_SIZE (min 5 (score / 150 + 1)) rs rp l h
    · exact hbuf l h
  · intro hge
    unfold road_refiller_step
    rw [if_neg hge]

/-- Witness for C8: the empty buffer with a failing service and score 0 — the
refill fires and the 30-line chunk is prepended. -/
theorem claim_C8_witness :
    road_refiller_step (fun _ _ _ => .error ()) 0 (fun _ _ => 0) (fun _ _ => 0) (fun _ _ => 0)
        ([] : List (List Char)) =
      llm_generate_road_chunk (fun _ _ _ => .error ()) [] ROAD_CHUNK_SIZE (min 5 (0 / 150 + 1))
        (fun _ _ => 0) (fun _ _ => 0) ++ [] :=
  (claim_C8_refiller_policy (fun _ _ _ => .error ()) 0 (fun _ _ => 0) (fun _ _ => 0)
    (fun _ _ => 0) [] (by simp)).1 (by decide)

lemma main_refill_step_length (svc : GenService) (score : Nat) (rs rp rv : Nat → Nat → Nat)
    (buf : List (List Char)) (h : buf.length < DISPLAY_HEIGHT + 10) :
    (main_refill_step svc score rs rp rv buf).length = ROAD_CHUNK_SIZE + buf.length := by
  unfold main_refill_step
  rw [if_pos h, validate_road_buffer_length, List.length_append, llm_chunk_length]

/-- C6: a simulation tick beginning with buffer length `DISPLAY_HEIGHT + 5`
triggers the safety-net refill (that length is below `DISPLAY_HEIGHT + 10`), a
full chunk is prepended, and the end-of-tick length is at least the pre-tick
length — net growth — even when the frame-advance tail pop also fires. -/
theorem claim_C6_safety_net_growth (svc : GenService) (score : Nat)
    (rs rp rv : Nat → Nat → Nat) (frame_advance : Bool) (buf : List (List Char))
    (h : buf.length = DISPLAY_HEIGHT + 5) :
    buf.length < DISPLAY_HEIGHT + 10 ∧
    (main_refill_step svc score rs rp rv buf).length = buf.length + ROAD_CHUNK_SIZE ∧
    buf.length ≤ (main_tick_buffer svc score rs rp rv frame_advance buf).length := by
  have hlt : buf.length < DISPLAY_HEIGHT + 10 := by omega
  have hlen := main_refill_step_length svc score rs rp rv buf hlt
  refine ⟨hlt, by omega, ?_⟩
  unfold main_tick_buffer pop_tail_step
  cases frame_advance with
  | false => simp only [Bool.false_eq_true, if_false]; omega
  | true =>
    simp only [if_true]
    split
    · rw [List.length_dropLast]
      omega
    · omega

/-- Witness for C6: a 30-line all-empty buffer with a failing service — the
tick ends with at least 30 lines. -/
theorem claim_C6_witness :
    (List.replicate (DISPLAY_HEIGHT + 5) ('|' :: List.replicate 25 ' ' ++ ['|'])).length <
        DISPLAY_HEIGHT + 10 ∧
    (main_refill_step (fun _ _ _ => .error ()) 0 (fun _ _ => 0) (fun _ _ => 0) (fun _ _ => 0)
        (List.replicate (DISPLAY_HEIGHT + 5) ('|' :: List.replicate 25 ' ' ++ ['|']))).length =
      (List.replicate (DISPLAY_HEIGHT + 5) ('|' :: List.replicate 25 ' ' ++ ['|'])).length +
        ROAD_CHUNK_SIZE ∧
    (List.replicate (DISPLAY_HEIGHT + 5) ('|' :: List.replicate 25 ' ' ++ ['|'])).length ≤
      (main_tick_buffer (fun _ _ _ => .error ()) 0 (fun _ _ => 0) (fun _ _ => 0) (fun _ _ => 0)
        true (List.replicate (DISPLAY_HEIGHT + 5) ('|' :: List.replicate 25 ' ' ++ ['|']))).length :=
  claim_C6_safety_net_growth (fun _ _ _ => .error ()) 0 (fun _ _ => 0) (fun _ _ => 0)
    (fun _ _ => 0) true (List.replicate (DISPLAY_HEIGHT + 5) ('|' :: List.replicate 25 ' ' ++ ['|']))
    (by simp)

lemma check_collision_in_range (buf : List (List Char)) (px py : Int)
    (hbuf : ∀ l ∈ buf, isTrackLine l = true)
    (hpx : 0 ≤ px ∧ px < (ROAD_WIDTH : Int))
    (hin : 0 ≤ road_line_index buf py ∧ road_line_index buf py < (buf.length : Int)) :
    check_collision buf px py =
      OBSTACLE_CHARS.contains
        ((buf.getD (road_line_index buf py).toNat []).getD (px + 1).toNat ' ') := by
  have hidx : (road_line_index buf py).toNat < buf.length := by omega
  have hline : buf.getD (road_line_index buf py).toNat [] ∈ buf := by
    rw [List.getD_eq_getElem _ _ hidx]
    exact List.getElem_mem hidx
  have hvalid := hbuf _ hline
  unfold isTrackLine at hvalid
  simp only [Bool.and_eq_true, beq_iff_eq] at hvalid
  obtain ⟨⟨⟨hlen, hhead⟩, hlast⟩, _⟩ := hvalid
  unfold check_collision
  rw [if_pos hin, if_pos ⟨hhead, hlast, hlen⟩, if_pos hpx]

/-- C4: collision detection computes the buffer index
`bufferLength - DISPLAY_HEIGHT + playerRow` and, over buffers of valid
TrackLines and a player column on the board: an obstacle at that cell yields
`true`, an empty cell yields `false`, and an out-of-range index yields `false`
with no false positive. -/
theorem claim_C4_collision_detection (buf : List (List Char)) (px py : Int)
    (hbuf : ∀ l ∈ buf, isTrackLine l = true)
    (hpx : 0 ≤ px ∧ px < (ROAD_WIDTH : Int)) :
    ((0 ≤ road_line_index buf py ∧ road_line_index buf py < (buf.length : Int)) →
        (buf.getD (road_line_index buf py).toNat []).getD (px + 1).toNat ' ' ∈ OBSTACLE_CHARS →
        check_collision buf px py = true) ∧
    ((0 ≤ road_line_index buf py ∧ road_line_index buf py < (buf.length : Int)) →
        (buf.getD (road_line_index buf py).toNat []).getD (px + 1).toNat ' ' = ' ' →
        check_collision buf px py = false) ∧
    (¬(0 ≤ road_line_index buf py ∧ road_line_index buf py < (buf.length : Int)) →
        check_collision buf px py = false) := by
  refine ⟨?_, ?_, ?_⟩
  · intro hin hcell
    rw [check_collision_in_range buf px py hbuf hpx hin]
    simpa using hcell
  · intro hin hcell
    rw [check_collision_in_range buf px py hbuf hpx hin, hcell]
    decide
  · intro hout
    unfold check_collision
    rw [if_neg hout]

/-- Witness for C4: a one-line buffer with an obstacle at column 5; with the
player at row 24 the index is 0 and the collision is detected. -/
theorem claim_C4_witness :
    check_collision ['|' :: (List.replicate 5 ' ' ++ '#' :: List.replicate 19 ' ') ++ ['|']]
      5 24 = true :=
  (claim_C4_collision_detection
      ['|' :: (List.replicate 5 ' ' ++ '#' :: List.replicate 19 ' ') ++ ['|']] 5 24
      (by decide) (by decide)).1 (by decide) (by decide)

/-- C7: over the whole gear table, `fps_mult` is strictly increasing in gear,
so the frame-advance interval `1 / (BASE_FPS × fps_mult)` strictly decreases —
each gear-up yields a strictly faster game clock tick. -/
theorem claim_C7_gear_speed_monotonic (g : Nat) (h1 : 1 ≤ g) (h2 : g < max_gear) :
    (GEAR_SPEEDS g).fps_mult < (GEAR_SPEEDS (g + 1)).fps_mult ∧
    frame_delay (g + 1) < frame_delay g := by
  have h2' : g < 10 := h2
  interval_cases g <;>
    constructor <;>
    norm_num [GEAR_SPEEDS, frame_delay, BASE_FPS]

/-- Witness for C7: gear 1 to gear 2. -/
theorem claim_C7_witness :
    (GEAR_SPEEDS 1).fps_mult < (GEAR_SPEEDS 2).fps_mult ∧ frame_delay 2 < frame_delay 1 :=
  claim_C7_gear_speed_monotonic 1 (by decide) (by decide)

lemma applyIntent_queue (s : PlayerState) (a : Intent) :
    (applyIntent s a).input_queue = s.input_queue := by
  cases a <;> simp only [applyIntent] <;> (try split) <;> rfl

lemma applyIntent_setQueue (s : PlayerState) (a : Intent) (q : List Intent) :
    applyIntent { s with input_queue := q } a = { applyIntent s a with input_queue := q } := by
  cases a <;> simp only [applyIntent] <;> first | rfl | (split <;> rfl)

lemma drainIntents_queue : ∀ (n : Nat) (s : PlayerState),
    (drainIntents n s).input_queue = s.input_queue.drop n := by
  intro n
  induction n with
  | zero => intro s; rfl
  | succ m ih =>
    intro s
    unfold drainIntents
    cases hq : s.input_queue with
    | nil =>
      simp only [hq]
      rw [ih, hq]
      simp
    | cons a rest =>
      simp only [hq]
      rw [ih, applyIntent_queue]
      simp

lemma drainIntents_eq_applyIntentList : ∀ (n : Nat) (s : PlayerState),
    drainIntents n s =
      applyIntentList { s with input_queue := s.input_queue.drop n } (s.input_queue.take n) := by
  intro n
  induction n with
  | zero => intro s; rfl
  | succ m ih =>
    intro s
    unfold drainIntents
    cases hq : s.input_queue with
    | nil =>
      simp only [hq]
      rw [ih, hq]
      simp
    | cons a rest =>
      simp only [hq, List.drop_succ_cons, List.take_succ_cons, applyIntentList]
      rw [ih]
      simp only [applyIntent_queue, applyIntent_setQueue]

lemma applyIntent_bounds (s : PlayerState) (a : Intent)
    (hx : 0 ≤ s.player_x ∧ s.player_x < (ROAD_WIDTH : Int))
    (hy : 0 ≤ s.player_y ∧ s.player_y < (DISPLAY_HEIGHT : Int)) :
    (0 ≤ (applyIntent s a).player_x ∧ (applyIntent s a).player_x < (ROAD_WIDTH : Int)) ∧
    (0 ≤ (applyIntent s a).player_y ∧ (applyIntent s a).player_y < (DISPLAY_HEIGHT : Int)) := by
  cases a <;> simp only [applyIntent] <;> (try split) <;> simp_all <;> omega

lemma applyIntent_gear (s : PlayerState) (a : Intent) (hg : s.current_gear ≤ max_gear) :
    s.current_gear ≤ (applyIntent s a).current_gear ∧
    (applyIntent s a).current_gear ≤ max_gear ∧
    (a ≠ Intent.gear_up → (applyIntent s a).current_gear = s.current_gear) := by
  cases a <;> simp only [applyIntent] <;> (try split) <;> simp_all [max_gear]

lemma drainIntents_inv : ∀ (n : Nat) (s : PlayerState),
    (0 ≤ s.player_x ∧ s.player_x < (ROAD_WIDTH : Int)) →
    (0 ≤ s.player_y ∧ s.player_y < (DISPLAY_HEIGHT : Int)) →
    s.current_gear ≤ max_gear →
    (0 ≤ (drainIntents n s).player_x ∧ (drainIntents n s).player_x < (ROAD_WIDTH : Int)) ∧
    (0 ≤ (drainIntents n s).player_y ∧ (drainIntents n s).player_y < (DISPLAY_HEIGHT : Int)) ∧
    s.current_gear ≤ (drainIntents n s).current_gear ∧
    (drainIntents n s).current_gear ≤ max_gear ∧
    (Intent.gear_up ∉ s.input_queue.take n →
      (drainIntents n s).current_gear = s.current_gear) := by
  intro n
  induction n with
  | zero => intro s hx hy hg; exact ⟨hx, hy, le_refl _, hg, fun _ => rfl⟩
  | succ m ih =>
    intro s hx hy hg
    unfold drainIntents
    cases hq : s.input_queue with
    | nil =>
      simp only [hq]
      have h := ih s hx hy hg
      refine ⟨h.1, h.2.1, h.2.2.1, h.2.2.2.1, fun _ => ?_⟩
      apply h.2.2.2.2
      rw [hq]
      simp
    | cons a rest =>
      simp only [hq, List.take_succ_cons, List.mem_cons]
      have hxy := applyIntent_bounds { s with input_queue := rest } a hx hy
      have hgg := applyIntent_gear { s with input_queue := rest } a hg
      have hrec := ih (applyIntent { s with input_queue := rest } a) hxy.1 hxy.2 hgg.2.1
      refine ⟨hrec.1, hrec.2.1, le_trans hgg.1 hrec.2.2.1, hrec.2.2.2.1, ?_⟩
      intro hnotin
      push_neg at hnotin
      have h1 : (applyIntent { s with input_queue := rest } a).current_gear = s.current_gear :=
        hgg.2.2 (fun he => hnotin.1 he.symm)
      have h2 := hrec.2.2.2.2
      rw [applyIntent_queue] at h2
      rw [h2 hnotin.2, h1]

theorem claim_C5_process_input_invariants (s : PlayerState)
    (hx : 0 ≤ s.player_x ∧ s.player_x < (ROAD_WIDTH : Int))
    (hy : 0 ≤ s.player_y ∧ s.player_y < (DISPLAY_HEIGHT : Int))
    (hg : 1 ≤ s.current_gear ∧ s.current_gear ≤ max_gear) :
    (0 ≤ (process_input s).player_x ∧ (process_input s).player_x < (ROAD_WIDTH : Int)) ∧
    (0 ≤ (process_input s).player_y ∧ (process_input s).player_y < (DISPLAY_HEIGHT : Int)) ∧
    s.current_gear ≤ (process_input s).current_gear ∧
    (process_input s).current_gear ≤ max_gear ∧
    (Intent.gear_up ∉ s.input_queue.take
        (min s.input_queue.length (GEAR_SPEEDS s.current_gear).move_speed) →
      (process_input s).current_gear = s.current_gear) ∧
    s.input_queue.length - (process_input s).input_queue.length ≤
      (GEAR_SPEEDS s.current_gear).move_speed := by
  have h := drainIntents_inv
    (min s.input_queue.length (GEAR_SPEEDS s.current_gear).move_speed) s hx hy hg.2
  have hq := drainIntents_queue
    (min s.input_queue.length (GEAR_SPEEDS s.current_gear).move_speed) s
  refine ⟨h.1, h.2.1, h.2.2.1, h.2.2.2.1, h.2.2.2.2, ?_⟩
  unfold process_input
  rw [hq, List.length_drop]
  omega

theorem claim_C5_witness :
    (process_input ⟨12, 22, 1, [Intent.gear_up]⟩).current_gear ≤ max_gear :=
  (claim_C5_process_input_invariants ⟨12, 22, 1, [Intent.gear_up]⟩ (by decide) (by decide)
    (by decide)).2.2.2.1

theorem claim_C10_fifo_consumption (s : PlayerState) :
    (process_input s).input_queue =
      s.input_queue.drop (min s.input_queue.length (GEAR_SPEEDS s.current_gear).move_speed) ∧
    process_input s =
      applyIntentList
        { s with input_queue :=
            (List.drop (min s.input_queue.length (GEAR_SPEEDS s.current_gear).move_speed)
              s.input_queue) }
        (s.input_queue.take (min s.input_queue.length (GEAR_SPEEDS s.current_gear).move_speed)) :=
  ⟨drainIntents_queue _ s, drainIntents_eq_applyIntentList _ s⟩
